import Mathlib

/-!
Shallow embedding of the analytics engine of the workout-log application
(`useExerciseConsistencyData.ts`, `maxRepUtils.ts`, `Stats.tsx`, `App.tsx`),
together with proofs and refutations of the specification's claims about it.

Conventions of the embedding:
* JavaScript `number` values produced by the engine are embedded as `ℚ`
  (every value the engine actually computes on this data is rational and
  exactly representable);  timestamps (`Date.getTime()`) are milliseconds
  as `ℤ`;  calendar handling follows a fixed-offset (UTC) day policy, the
  one explicit policy the specification allows an implementer to pick.
* `Math.round x` is `round x` (both are `⌊x + 1/2⌋`, also for negative `x`),
  `Math.ceil` is `⌈·⌉`, `Math.floor` is `⌊·⌋`.
* `Array.prototype.sort` with comparator `(a, b) => key a - key b` is the
  stable ascending `List.insertionSort` on the key;  `sort()` without a
  comparator on strings is `List.insertionSort (· ≤ ·)` on `String`
  (both compare lexicographically by code unit).
-/

namespace WorkoutV5

/-- Milliseconds in one calendar day (`1000 * 60 * 60 * 24`). -/
def msPerDay : ℤ := 86400000

/-- Calendar-day index of a millisecond timestamp under the fixed-offset day
policy: the day containing `ms`. -/
def calendarDay (ms : ℤ) : ℤ := ms / msPerDay

/-- Midnight (start of the calendar day) of the day containing `ms`;  embeds
the source's `new Date(d.getFullYear(), d.getMonth(), d.getDate())`. -/
def dayMidnight (ms : ℤ) : ℤ := calendarDay ms * msPerDay

/-- One logged set (`WorkoutSet` in `types/index.ts`);  only the fields the
analytics engine reads are embedded. -/
structure WorkoutSet where
  exerciseId : String
  reps : ℤ
deriving DecidableEq

/-- One logged workout;  `date` is the already-parsed millisecond timestamp
(`safeParseDate` is the identity on workouts carrying a valid `Date`, see
`safeParseDate_on_valid_date`). -/
structure Workout where
  date : ℤ
  sets : List WorkoutSet
deriving DecidableEq

/-- `ConsistencyPattern` from `useExerciseConsistencyData.ts`. -/
inductive ConsistencyPattern where
  | Stable
  | Variable
  | Irregular
deriving DecidableEq

/-- `TrendDirection` from `useExerciseConsistencyData.ts`. -/
inductive TrendDirection where
  | improving
  | declining
  | stable
  | insufficient
deriving DecidableEq

/-- `PeriodType` from `useExerciseConsistencyData.ts`. -/
inductive PeriodType where
  | fourmonths
  | currentYear
  | lastYear
deriving DecidableEq

/-- `RestDaysData` entry: one rest interval, carrying the date of the later
workout of the pair and the gap in days. -/
structure RestDaysData where
  date : ℤ
  days : ℚ
deriving DecidableEq

/-- The `trend` object of `ConsistencyData`. -/
structure TrendResult where
  direction : TrendDirection
  percentageChange : ℤ
  recentMedian : ℚ
  pastMedian : ℚ
deriving DecidableEq

/-- `calculateMedian` from `useExerciseConsistencyData.ts`: 0 on the empty
list, otherwise the middle element of the ascending sort, averaging the two
middle elements on even length. -/
def calculateMedian (values : List ℚ) : ℚ :=
  if values.length = 0 then 0
  else
    let sorted := List.insertionSort (· ≤ ·) values
    let mid := sorted.length / 2
    if sorted.length % 2 = 0 then (sorted.getD (mid - 1) 0 + sorted.getD mid 0) / 2
    else sorted.getD mid 0

/-- `getConsistencyPattern` from `useExerciseConsistencyData.ts`: classify a
gap list by the interquartile range of its ascending sort, using quartile
indices `floor(n * 0.25)` and `floor(n * 0.75)` (the source's float literals
`0.25` and `0.75` are exactly `25/100` and `75/100`). -/
def getConsistencyPattern (restDays : List ℚ) : ConsistencyPattern :=
  if restDays.length < 2 then .Stable
  else
    let sorted := List.insertionSort (· ≤ ·) restDays
    let q1Index := (⌊(sorted.length : ℚ) * (25 / 100)⌋).toNat
    let q3Index := (⌊(sorted.length : ℚ) * (75 / 100)⌋).toNat
    let q1 := sorted.getD q1Index 0
    let q3 := sorted.getD q3Index 0
    let iqr := q3 - q1
    if iqr ≤ 2 then .Stable
    else if iqr ≤ 7 then .Variable
    else .Irregular

/-- The claim `C1` names this classification rule, stated in the spec's own
words, to compare with the source's `getConsistencyPattern`. -/
def specIqrPattern (gaps : List ℚ) : ConsistencyPattern :=
  if gaps.length < 2 then .Stable
  else
    let sorted := List.insertionSort (· ≤ ·) gaps
    let q1 := sorted.getD (⌊(sorted.length : ℚ) * (25 / 100)⌋).toNat 0
    let q3 := sorted.getD (⌊(sorted.length : ℚ) * (75 / 100)⌋).toNat 0
    if q3 - q1 ≤ 2 then .Stable
    else if q3 - q1 ≤ 7 then .Variable
    else .Irregular

/-- Claim C1: for every gap list the consistency pattern is computed from
`q1 = sorted[floor(n*0.25)]`, `q3 = sorted[floor(n*0.75)]` of the ascending
sort with `IQR = q3 - q1`, classifying `Stable` when `IQR ≤ 2`, `Variable`
when `2 < IQR ≤ 7`, `Irregular` otherwise, and `Stable` for fewer than 2
gaps;  gaps `[3, 6, 1]` classify as `Variable` with median gap 3. -/
theorem consistencyPattern_follows_iqr_rule :
    (∀ gaps : List ℚ, getConsistencyPattern gaps = specIqrPattern gaps)
    ∧ (∀ gaps : List ℚ, gaps.length < 2 → getConsistencyPattern gaps = .Stable)
    ∧ getConsistencyPattern [3, 6, 1] = .Variable
    ∧ calculateMedian [3, 6, 1] = 3 := by
  refine ⟨fun gaps => rfl, fun gaps h => ?_, ?_, ?_⟩
  · unfold getConsistencyPattern
    simp [h]
  · unfold getConsistencyPattern
    norm_num [List.insertionSort, List.orderedInsert, List.getD,
      List.getElem?_cons_succ, List.getElem?_cons_zero]
    decide
  · unfold calculateMedian
    norm_num [List.insertionSort, List.orderedInsert, List.getD,
      List.getElem?_cons_succ, List.getElem?_cons_zero]

/-- Witness for C1 at the spec's concrete example. -/
theorem consistencyPattern_follows_iqr_rule_witness :
    getConsistencyPattern [5] = .Stable :=
  consistencyPattern_follows_iqr_rule.2.1 [5] (by decide)

/-! ## Median helper lemmas -/

/-- A `getD` value is either a member of the list or the default. -/
theorem getD_mem_or_default {α : Type} (l : List α) (i : ℕ) (d : α) :
    l.getD i d ∈ l ∨ l.getD i d = d := by
  by_cases h : i < l.length
  · exact Or.inl (by rw [List.getD_eq_getElem l d h]; exact List.getElem_mem h)
  · exact Or.inr (List.getD_eq_default l d (le_of_not_lt h))

/-- The median of a list of nonnegative rationals is nonnegative. -/
theorem calculateMedian_nonneg (values : List ℚ) (h : ∀ x ∈ values, 0 ≤ x) :
    0 ≤ calculateMedian values := by
  unfold calculateMedian
  by_cases he : values.length = 0
  · simp [he]
  · have hmem : ∀ x ∈ List.insertionSort (· ≤ ·) values, 0 ≤ x := fun x hx =>
      h x ((List.perm_insertionSort (· ≤ ·) values).mem_iff.mp hx)
    have hgetD : ∀ i : ℕ, 0 ≤ (List.insertionSort (· ≤ ·) values).getD i 0 := by
      intro i
      rcases getD_mem_or_default (List.insertionSort (· ≤ ·) values) i 0 with hm | hd
      · exact hmem _ hm
      · rw [hd]
    simp only [he, if_false]
    by_cases hp : (List.insertionSort (· ≤ ·) values).length % 2 = 0
    · simp only [hp, if_true, if_false, reduceIte]
      exact div_nonneg (add_nonneg (hgetD _) (hgetD _)) (by norm_num)
    · simp only [hp, if_true, if_false, reduceIte]
      exact hgetD _

/-- The median of a list of integer-valued rationals is half an integer. -/
theorem calculateMedian_int_valued (values : List ℚ)
    (h : ∀ x ∈ values, ∃ k : ℤ, x = (k : ℚ)) :
    ∃ k : ℤ, calculateMedian values = (k : ℚ) / 2 := by
  unfold calculateMedian
  by_cases he : values.length = 0
  · exact ⟨0, by simp [he]⟩
  · have hmem : ∀ x ∈ List.insertionSort (· ≤ ·) values, ∃ k : ℤ, x = (k : ℚ) :=
      fun x hx => h x ((List.perm_insertionSort (· ≤ ·) values).mem_iff.mp hx)
    have hgetD : ∀ i : ℕ, ∃ k : ℤ, (List.insertionSort (· ≤ ·) values).getD i 0 = (k : ℚ) := by
      intro i
      rcases getD_mem_or_default (List.insertionSort (· ≤ ·) values) i 0 with hm | hd
      · exact hmem _ hm
      · exact ⟨0, by rw [hd]; norm_num⟩
    simp only [he, if_false]
    by_cases hp : (List.insertionSort (· ≤ ·) values).length % 2 = 0 <;>
      simp only [hp, if_true, if_false, reduceIte]
    · obtain ⟨k1, hk1⟩ := hgetD ((List.insertionSort (· ≤ ·) values).length / 2 - 1)
      obtain ⟨k2, hk2⟩ := hgetD ((List.insertionSort (· ≤ ·) values).length / 2)
      exact ⟨k1 + k2, by rw [hk1, hk2]; push_cast; ring⟩
    · obtain ⟨k, hk⟩ := hgetD ((List.insertionSort (· ≤ ·) values).length / 2)
      exact ⟨2 * k, by rw [hk]; push_cast; ring⟩

/-! ## Trend detector (`calculateTrend`) -/

/-- `calculateTrend` from `useExerciseConsistencyData.ts`: for the 4-month
period and at least 4 gap entries, sort the gap list by date, split at the
midpoint index into a past half and a recent half, and compare the two
halves' medians;  otherwise the result is `null` (`none`). -/
def calculateTrend (restDaysData : List RestDaysData) (period : PeriodType) :
    Option TrendResult :=
  if period ≠ .fourmonths ∨ restDaysData.length < 4 then none
  else
    let sorted := List.insertionSort (fun a b => a.date ≤ b.date) restDaysData
    let midPoint := sorted.length / 2
    let recentData := sorted.drop midPoint
    let pastData := sorted.take midPoint
    if recentData.length < 2 ∨ pastData.length < 2 then
      some { direction := .insufficient, percentageChange := 0,
             recentMedian := calculateMedian (recentData.map (fun d => d.days)),
             pastMedian := calculateMedian (pastData.map (fun d => d.days)) }
    else
      let recentMedian := calculateMedian (recentData.map (fun d => d.days))
      let pastMedian := calculateMedian (pastData.map (fun d => d.days))
      let percentageChange : ℤ :=
        if 0 < pastMedian then round ((pastMedian - recentMedian) / pastMedian * 100)
        else 0
      let direction : TrendDirection :=
        if 10 < percentageChange then .improving
        else if percentageChange < -10 then .declining
        else .stable
      some { direction := direction, percentageChange := percentageChange,
             recentMedian := recentMedian, pastMedian := pastMedian }

/-- Median of the recent (second) half of the date-sorted gap list;  named
abbreviation for the quantity `recentMedian` computed by `calculateTrend`. -/
def trendRecentMedian (l : List RestDaysData) : ℚ :=
  calculateMedian
    (((List.insertionSort (fun a b => a.date ≤ b.date) l).drop (l.length / 2)).map
      (fun d => d.days))

/-- Median of the past (first) half of the date-sorted gap list;  named
abbreviation for the quantity `pastMedian` computed by `calculateTrend`. -/
def trendPastMedian (l : List RestDaysData) : ℚ :=
  calculateMedian
    (((List.insertionSort (fun a b => a.date ≤ b.date) l).take (l.length / 2)).map
      (fun d => d.days))

/-- The `percentageChange` computed by `calculateTrend` on the two-halves
branch. -/
def trendPC (l : List RestDaysData) : ℤ :=
  if 0 < trendPastMedian l then
    round ((trendPastMedian l - trendRecentMedian l) / trendPastMedian l * 100)
  else 0

/-- The direction label assigned by `calculateTrend` from a percentage
change. -/
def trendDir (pc : ℤ) : TrendDirection :=
  if 10 < pc then .improving
  else if pc < -10 then .declining
  else .stable

theorem trendDir_improving_iff (pc : ℤ) : trendDir pc = .improving ↔ 10 < pc := by
  unfold trendDir
  by_cases h1 : 10 < pc
  · simp [h1]
  · by_cases h2 : pc < -10 <;> simp [h1, h2]

theorem trendDir_declining_iff (pc : ℤ) : trendDir pc = .declining ↔ pc < -10 := by
  unfold trendDir
  by_cases h1 : 10 < pc
  · simp only [if_pos h1]
    constructor
    · intro h; cases h
    · intro h; omega
  · by_cases h2 : pc < -10 <;> simp [h1, h2]

theorem trendDir_stable_iff (pc : ℤ) :
    trendDir pc = .stable ↔ (-10 ≤ pc ∧ pc ≤ 10) := by
  unfold trendDir
  by_cases h1 : 10 < pc
  · simp only [if_pos h1]
    constructor
    · intro h; cases h
    · intro h; omega
  · by_cases h2 : pc < -10
    · simp only [if_neg h1, if_pos h2]
      constructor
      · intro h; cases h
      · intro h; omega
    · simp only [if_neg h1, if_neg h2, true_iff]
      omega

theorem trendDir_real (pc : ℤ) :
    trendDir pc = .improving ∨ trendDir pc = .declining ∨ trendDir pc = .stable := by
  unfold trendDir
  by_cases h1 : 10 < pc
  · exact Or.inl (if_pos h1)
  · by_cases h2 : pc < -10
    · right; left; rw [if_neg h1, if_pos h2]
    · right; right; rw [if_neg h1, if_neg h2]

/-- On ≥ 4 entries and the 4-month period, `calculateTrend` reaches the
two-halves comparison branch. -/
theorem calculateTrend_of_four_le (l : List RestDaysData) (hlen : 4 ≤ l.length) :
    calculateTrend l .fourmonths =
      some { direction := trendDir (trendPC l), percentageChange := trendPC l,
             recentMedian := trendRecentMedian l, pastMedian := trendPastMedian l } := by
  unfold calculateTrend trendDir trendPC trendPastMedian trendRecentMedian
  rw [if_neg (by simp; omega)]
  simp only [List.length_insertionSort]
  rw [if_neg (by
    simp only [List.length_drop, List.length_take, List.length_insertionSort]
    rw [Nat.min_eq_left (by omega)]
    omega)]

/-- Claim C2 (amended): with at least 4 nonnegative gap entries in the
4-month window, the trend is a record whose medians are the two halves'
medians, whose `percentageChange` equals `round(100 × (pastMedian −
recentMedian) / pastMedian)` (the source's division-by-zero guard agrees
with the rational convention `x / 0 = 0`), and whose direction is
`improving` exactly when `percentageChange > 10`, `declining` exactly when
`percentageChange < −10`, and `stable` otherwise;  with fewer than 4 gap
entries the result is `none` (`null` in the source), not a record marked
`insufficient`. -/
theorem calculateTrend_formula (l : List RestDaysData)
    (hnn : ∀ d ∈ l, 0 ≤ d.days) (hlen : 4 ≤ l.length) :
    (∃ t, calculateTrend l .fourmonths = some t ∧
      t.recentMedian = trendRecentMedian l ∧
      t.pastMedian = trendPastMedian l ∧
      t.percentageChange = round (100 * (t.pastMedian - t.recentMedian) / t.pastMedian) ∧
      (t.direction = .improving ↔ 10 < t.percentageChange) ∧
      (t.direction = .declining ↔ t.percentageChange < -10) ∧
      (t.direction = .stable ↔ (-10 ≤ t.percentageChange ∧ t.percentageChange ≤ 10)))
    ∧ (∀ l2 : List RestDaysData, l2.length < 4 → calculateTrend l2 .fourmonths = none) := by
  constructor
  · rw [calculateTrend_of_four_le l hlen]
    refine ⟨_, rfl, rfl, rfl, ?_, trendDir_improving_iff _, trendDir_declining_iff _,
      trendDir_stable_iff _⟩
    have hpm0 : 0 ≤ trendPastMedian l := by
      refine calculateMedian_nonneg _ ?_
      intro x hx
      obtain ⟨d, hd, hdx⟩ := List.mem_map.mp hx
      exact hdx ▸
        hnn d ((List.perm_insertionSort _ l).mem_iff.mp (List.mem_of_mem_take hd))
    show trendPC l = _
    unfold trendPC
    by_cases hp : 0 < trendPastMedian l
    · rw [if_pos hp]
      have : (trendPastMedian l - trendRecentMedian l) / trendPastMedian l * 100 =
          100 * (trendPastMedian l - trendRecentMedian l) / trendPastMedian l := by
        ring
      rw [this]
    · have h0 : trendPastMedian l = 0 := le_antisymm (not_lt.mp hp) hpm0
      rw [if_neg hp, h0]
      simp
  · intro l2 h2
    unfold calculateTrend
    rw [if_pos (Or.inr h2)]

/-- Witness for C2 on the gap list `[3, 6, 1, 2]` over four dates. -/
theorem calculateTrend_formula_witness :
    ∃ t, calculateTrend [⟨0, 3⟩, ⟨1, 6⟩, ⟨2, 1⟩, ⟨3, 2⟩] .fourmonths = some t ∧
      t.recentMedian = trendRecentMedian [⟨0, 3⟩, ⟨1, 6⟩, ⟨2, 1⟩, ⟨3, 2⟩] ∧
      t.pastMedian = trendPastMedian [⟨0, 3⟩, ⟨1, 6⟩, ⟨2, 1⟩, ⟨3, 2⟩] ∧
      t.percentageChange = round (100 * (t.pastMedian - t.recentMedian) / t.pastMedian) ∧
      (t.direction = .improving ↔ 10 < t.percentageChange) ∧
      (t.direction = .declining ↔ t.percentageChange < -10) ∧
      (t.direction = .stable ↔ (-10 ≤ t.percentageChange ∧ t.percentageChange ≤ 10)) :=
  (calculateTrend_formula [⟨0, 3⟩, ⟨1, 6⟩, ⟨2, 1⟩, ⟨3, 2⟩] (by decide) (by decide)).1

/-- Counterexample to C2 as stated: with only 3 gap entries the source
returns `null` (`none`), so there is no trend record at all — in particular
no record with direction `insufficient` as the claim asserts. -/
theorem calculateTrend_three_gaps_is_none :
    calculateTrend [⟨0, 3⟩, ⟨1, 6⟩, ⟨2, 1⟩] .fourmonths = none := by
  unfold calculateTrend
  rw [if_pos (Or.inr (by decide))]

/-- Claim C3: with ≥ 4 date-sorted gap entries, the midpoint split leaves at
least 2 entries in each half, so the `insufficient` branch of the trend
detector is unreachable and the direction is a real one;  in particular the
4-gap boundary case (gaps `[1, 1, 1, 1]`) yields direction `stable`, never
`insufficient`. -/
theorem calculateTrend_halves_never_insufficient (l : List RestDaysData)
    (hlen : 4 ≤ l.length) :
    2 ≤ ((List.insertionSort (fun a b => a.date ≤ b.date) l).take (l.length / 2)).length
    ∧ 2 ≤ ((List.insertionSort (fun a b => a.date ≤ b.date) l).drop (l.length / 2)).length
    ∧ (∃ t, calculateTrend l .fourmonths = some t ∧
        (t.direction = .improving ∨ t.direction = .declining ∨ t.direction = .stable))
    ∧ (calculateTrend [⟨0, 1⟩, ⟨1, 1⟩, ⟨2, 1⟩, ⟨3, 1⟩] .fourmonths).map
        (fun t => t.direction) = some .stable := by
  have hsl : (List.insertionSort (fun a b => a.date ≤ b.date) l).length = l.length :=
    List.length_insertionSort _ l
  refine ⟨?_, ?_, ?_, ?_⟩
  · rw [List.length_take, hsl]
    refine le_min (by omega) (by omega)
  · rw [List.length_drop, hsl]; omega
  · rw [calculateTrend_of_four_le l hlen]
    exact ⟨_, rfl, trendDir_real _⟩
  · rw [calculateTrend_of_four_le _ (by decide)]
    have hpm : trendPastMedian [⟨0, 1⟩, ⟨1, 1⟩, ⟨2, 1⟩, ⟨3, 1⟩] = 1 := by
      unfold trendPastMedian calculateMedian
      norm_num [List.insertionSort, List.orderedInsert, List.getD,
        List.getElem?_cons_succ, List.getElem?_cons_zero]
    have hrm : trendRecentMedian [⟨0, 1⟩, ⟨1, 1⟩, ⟨2, 1⟩, ⟨3, 1⟩] = 1 := by
      unfold trendRecentMedian calculateMedian
      norm_num [List.insertionSort, List.orderedInsert, List.getD,
        List.getElem?_cons_succ, List.getElem?_cons_zero]
    have hpc : trendPC [⟨0, 1⟩, ⟨1, 1⟩, ⟨2, 1⟩, ⟨3, 1⟩] = 0 := by
      unfold trendPC
      rw [hpm, hrm]
      norm_num
    simp [hpc, trendDir]

/-- Witness for C3 on a 4-entry gap list. -/
theorem calculateTrend_halves_never_insufficient_witness :
    2 ≤ ((List.insertionSort (fun a b => a.date ≤ b.date)
        ([⟨0, 2⟩, ⟨1, 5⟩, ⟨2, 4⟩, ⟨3, 3⟩] : List RestDaysData)).take
          (([⟨0, 2⟩, ⟨1, 5⟩, ⟨2, 4⟩, ⟨3, 3⟩] : List RestDaysData).length / 2)).length
    ∧ 2 ≤ ((List.insertionSort (fun a b => a.date ≤ b.date)
        ([⟨0, 2⟩, ⟨1, 5⟩, ⟨2, 4⟩, ⟨3, 3⟩] : List RestDaysData)).drop
          (([⟨0, 2⟩, ⟨1, 5⟩, ⟨2, 4⟩, ⟨3, 3⟩] : List RestDaysData).length / 2)).length
    ∧ (∃ t, calculateTrend [⟨0, 2⟩, ⟨1, 5⟩, ⟨2, 4⟩, ⟨3, 3⟩] .fourmonths = some t ∧
        (t.direction = .improving ∨ t.direction = .declining ∨ t.direction = .stable))
    ∧ (calculateTrend [⟨0, 1⟩, ⟨1, 1⟩, ⟨2, 1⟩, ⟨3, 1⟩] .fourmonths).map
        (fun t => t.direction) = some .stable :=
  calculateTrend_halves_never_insufficient [⟨0, 2⟩, ⟨1, 5⟩, ⟨2, 4⟩, ⟨3, 3⟩] (by decide)

/-! ## Rest intervals (`calculateRestDays`) -/

/-- A workout qualifies for an exercise when it contains at least one set of
that exercise (`workout.sets.some(set => set.exerciseId === exerciseId)`). -/
def qualifies (exerciseId : String) (w : Workout) : Bool :=
  w.sets.any (fun s => s.exerciseId == exerciseId)

/-- The gap pushed by one iteration of the `calculateRestDays` loop:
`Math.ceil(|midnight(current) − midnight(previous)| / 86 400 000)`. -/
def gapDays (current previous : ℤ) : ℚ :=
  ((⌈(|((dayMidnight current : ℚ)) - ((dayMidnight previous : ℚ))| /
      (1000 * 60 * 60 * 24) : ℚ)⌉ : ℤ) : ℚ)

/-- The loop of `calculateRestDays`: one entry per consecutive pair of the
(sorted) session dates, dated at the later session of the pair. -/
def consecutiveGaps : List ℤ → List RestDaysData
  | [] => []
  | previous :: rest =>
    match rest with
    | [] => []
    | current :: _ => ⟨current, gapDays current previous⟩ :: consecutiveGaps rest

/-- `calculateRestDays` from `useExerciseConsistencyData.ts`: collect the
qualifying workouts' dates, sort ascending, and emit the gap between each
consecutive pair of sessions;  fewer than 2 sessions yield no gaps.  (The
source sorts `{date, workout}` pairs by date and then reads only the dates,
which is the same as sorting the date list.) -/
def calculateRestDays (workouts : List Workout) (exerciseId : String) :
    List RestDaysData :=
  let sessions := List.insertionSort (fun a b => a ≤ b)
    ((workouts.filter (fun w => qualifies exerciseId w)).map (fun w => w.date))
  if sessions.length < 2 then [] else consecutiveGaps sessions

theorem gapDays_nonneg (current previous : ℤ) : 0 ≤ gapDays current previous := by
  unfold gapDays
  exact Int.cast_nonneg.mpr (Int.ceil_nonneg (div_nonneg (abs_nonneg _) (by norm_num)))

theorem gapDays_int (current previous : ℤ) :
    ∃ k : ℤ, gapDays current previous = (k : ℚ) :=
  ⟨_, rfl⟩

theorem consecutiveGaps_length : ∀ l : List ℤ, (consecutiveGaps l).length = l.length - 1
  | [] => rfl
  | [_] => rfl
  | a :: b :: rest => by
    show (consecutiveGaps (b :: rest)).length + 1 = (b :: rest).length
    rw [consecutiveGaps_length (b :: rest)]
    simp

theorem consecutiveGaps_shape : ∀ l : List ℤ, ∀ d ∈ consecutiveGaps l,
    ∃ current previous : ℤ, d = ⟨current, gapDays current previous⟩
  | [] => by intro d hd; cases hd
  | [_] => by intro d hd; cases hd
  | a :: b :: rest => by
    intro d hd
    have hd2 : d = ⟨b, gapDays b a⟩ ∨ d ∈ consecutiveGaps (b :: rest) :=
      List.mem_cons.mp hd
    rcases hd2 with rfl | hd2
    · exact ⟨b, a, rfl⟩
    · exact consecutiveGaps_shape (b :: rest) d hd2

/-- Every gap produced by `calculateRestDays` is an integer-valued rational. -/
theorem calculateRestDays_days_int (workouts : List Workout) (exerciseId : String) :
    ∀ d ∈ calculateRestDays workouts exerciseId, ∃ k : ℤ, d.days = (k : ℚ) := by
  intro d hd
  unfold calculateRestDays at hd
  by_cases h : (List.insertionSort (fun a b => a ≤ b)
      ((workouts.filter (fun w => qualifies exerciseId w)).map (fun w => w.date))).length < 2
  · rw [if_pos h] at hd; cases hd
  · rw [if_neg h] at hd
    obtain ⟨c, p, rfl⟩ := consecutiveGaps_shape _ d hd
    exact gapDays_int c p

/-- Every gap produced by `calculateRestDays` is nonnegative. -/
theorem calculateRestDays_days_nonneg (workouts : List Workout) (exerciseId : String) :
    ∀ d ∈ calculateRestDays workouts exerciseId, 0 ≤ d.days := by
  intro d hd
  unfold calculateRestDays at hd
  by_cases h : (List.insertionSort (fun a b => a ≤ b)
      ((workouts.filter (fun w => qualifies exerciseId w)).map (fun w => w.date))).length < 2
  · rw [if_pos h] at hd; cases hd
  · rw [if_neg h] at hd
    obtain ⟨c, p, rfl⟩ := consecutiveGaps_shape _ d hd
    exact gapDays_nonneg c p

/-- With fewer than 2 qualifying workouts there are no rest intervals. -/
theorem calculateRestDays_nil_of_lt_two (workouts : List Workout) (exerciseId : String)
    (h : (workouts.filter (fun w => qualifies exerciseId w)).length < 2) :
    calculateRestDays workouts exerciseId = [] := by
  unfold calculateRestDays
  rw [if_pos (by rw [List.length_insertionSort, List.length_map]; exact h)]

/-- Claim C5 (amended): the rest-interval list is computed from the
time-sorted qualifying workout *sessions* without any same-day
deduplication — one gap entry per consecutive pair of sessions (hence
`count − 1` entries for `count ≥ 2` qualifying workouts), each gap
nonnegative;  two qualifying workouts on the same calendar day therefore
contribute a 0 gap rather than being merged into one qualifying day. -/
theorem calculateRestDays_counts_sessions (workouts : List Workout) (exerciseId : String) :
    (calculateRestDays workouts exerciseId).length =
      (if (workouts.filter (fun w => qualifies exerciseId w)).length < 2 then 0
       else (workouts.filter (fun w => qualifies exerciseId w)).length - 1)
    ∧ (calculateRestDays workouts exerciseId).all (fun d => decide (0 ≤ d.days)) = true := by
  constructor
  · by_cases h : (workouts.filter (fun w => qualifies exerciseId w)).length < 2
    · rw [calculateRestDays_nil_of_lt_two workouts exerciseId h, if_pos h]
      rfl
    · rw [if_neg h]
      unfold calculateRestDays
      rw [if_neg (by rw [List.length_insertionSort, List.length_map]; exact h)]
      rw [consecutiveGaps_length, List.length_insertionSort, List.length_map]
  · rw [List.all_eq_true]
    intro d hd
    simpa using calculateRestDays_days_nonneg workouts exerciseId d hd

/-- Counterexample to C5 as stated: two qualifying workouts on the same
calendar day (here one hour apart on day 10) are not deduplicated — the
rest-interval list contains a 0 gap produced by the repeated day. -/
theorem calculateRestDays_same_day_zero_gap :
    calculateRestDays [⟨864000000, [⟨"a", 5⟩]⟩, ⟨867600000, [⟨"a", 5⟩]⟩] "a" =
      [⟨867600000, 0⟩]
    ∧ (0 : ℚ) ∈ (calculateRestDays [⟨864000000, [⟨"a", 5⟩]⟩, ⟨867600000, [⟨"a", 5⟩]⟩] "a").map
        (fun d => d.days) := by
  have hg : gapDays 867600000 864000000 = 0 := by
    unfold gapDays
    rw [show dayMidnight 867600000 = 864000000 from by decide,
        show dayMidnight 864000000 = 864000000 from by decide]
    norm_num
  have hs : List.insertionSort (fun a b => a ≤ b)
      ((([⟨864000000, [⟨"a", 5⟩]⟩, ⟨867600000, [⟨"a", 5⟩]⟩] : List Workout).filter
        (fun w => qualifies "a" w)).map (fun w => w.date)) = [864000000, 867600000] := by
    decide
  have h : calculateRestDays [⟨864000000, [⟨"a", 5⟩]⟩, ⟨867600000, [⟨"a", 5⟩]⟩] "a" =
      [⟨867600000, gapDays 867600000 864000000⟩] := by
    unfold calculateRestDays
    simp only [hs]
    rfl
  rw [h, hg]
  exact ⟨rfl, by simp⟩

/-! ## Consistency data hook (`useExerciseConsistencyData`) -/

/-- Values the source derives from the host clock (`new Date()`,
`setMonth(getMonth() − 4)`, start/end of the relevant calendar years), fixed
once per engine invocation. -/
structure ClockContext where
  now : ℤ
  fourMonthsAgo : ℤ
  startOfYear : ℤ
  startOfLastYear : ℤ
  endOfLastYear : ℤ
  currentYearNum : ℤ
deriving DecidableEq

/-- `filterWorkoutsByPeriod` from `useExerciseConsistencyData.ts`. -/
def filterWorkoutsByPeriod (ctx : ClockContext) (workouts : List Workout)
    (period : PeriodType) : List Workout :=
  match period with
  | .fourmonths => workouts.filter (fun w => decide (ctx.fourMonthsAgo ≤ w.date))
  | .currentYear => workouts.filter (fun w => decide (ctx.startOfYear ≤ w.date))
  | .lastYear => workouts.filter
      (fun w => decide (ctx.startOfLastYear ≤ w.date) && decide (w.date ≤ ctx.endOfLastYear))

/-- `Math.min(...values)` on a spread list (only reached on nonempty input). -/
def jsMin (values : List ℚ) : ℚ :=
  match values with
  | [] => 0
  | x :: xs => xs.foldl min x

/-- `Math.max(...values)` on a spread list (only reached on nonempty input). -/
def jsMax (values : List ℚ) : ℚ :=
  match values with
  | [] => 0
  | x :: xs => xs.foldl max x

/-- One `distribution.set(days, (distribution.get(days) || 0) + 1)` step on
an insertion-ordered map. -/
def mapIncr (m : List (ℚ × ℕ)) (k : ℚ) : List (ℚ × ℕ) :=
  if m.any (fun p => p.1 == k) then
    m.map (fun p => if p.1 == k then (p.1, p.2 + 1) else p)
  else m ++ [(k, 1)]

/-- `Math.round(x * 10) / 10`, the one-decimal rounding the source applies to
median outputs. -/
def roundTenths (x : ℚ) : ℚ := ((round (x * 10) : ℤ) : ℚ) / 10

/-- `ConsistencyData` from `useExerciseConsistencyData.ts`;  the `Map` of the
source is embedded as an insertion-ordered association list. -/
structure ConsistencyData where
  medianRestDays : ℚ
  minRestDays : ℚ
  maxRestDays : ℚ
  workoutCount : ℕ
  pattern : ConsistencyPattern
  restDaysDistribution : List (ℚ × ℕ)
  restDaysData : List RestDaysData
  trend : Option TrendResult
deriving DecidableEq

/-- `useExerciseConsistencyData` from `useExerciseConsistencyData.ts` (the
pure computation inside the `useMemo`). -/
def useExerciseConsistencyData (ctx : ClockContext) (workouts : List Workout)
    (exerciseId : String) (period : PeriodType) : Option ConsistencyData :=
  if exerciseId = "" then none
  else
    let filteredWorkouts := filterWorkoutsByPeriod ctx workouts period
    let restDaysData := calculateRestDays filteredWorkouts exerciseId
    if restDaysData.length = 0 then
      let exerciseWorkouts := filteredWorkouts.filter (fun w => qualifies exerciseId w)
      some { medianRestDays := 0, minRestDays := 0, maxRestDays := 0,
             workoutCount := exerciseWorkouts.length, pattern := .Stable,
             restDaysDistribution := [], restDaysData := [], trend := none }
    else
      let restDays := restDaysData.map (fun d => d.days)
      let medianRestDays := calculateMedian restDays
      let minRestDays := jsMin restDays
      let maxRestDays := jsMax restDays
      let distribution := restDays.foldl mapIncr []
      let pattern := getConsistencyPattern restDays
      let trend := calculateTrend restDaysData period
      let exerciseWorkouts := filteredWorkouts.filter (fun w => qualifies exerciseId w)
      some { medianRestDays := roundTenths medianRestDays,
             minRestDays := minRestDays, maxRestDays := maxRestDays,
             workoutCount := exerciseWorkouts.length, pattern := pattern,
             restDaysDistribution := distribution, restDaysData := restDaysData,
             trend := trend }

/-- Claim C9: with 0 or 1 qualifying workouts in the window (and a nonempty
exercise id, without which the hook returns `null` before computing), the
classifier returns a valid summary — empty rest-interval list, median 0,
pattern `Stable`, and an empty gap histogram — never an error. -/
theorem useExerciseConsistencyData_degenerate (ctx : ClockContext)
    (workouts : List Workout) (exerciseId : String) (period : PeriodType)
    (hne : exerciseId ≠ "")
    (hq : ((filterWorkoutsByPeriod ctx workouts period).filter
        (fun w => qualifies exerciseId w)).length ≤ 1) :
    useExerciseConsistencyData ctx workouts exerciseId period =
      some { medianRestDays := 0, minRestDays := 0, maxRestDays := 0,
             workoutCount := ((filterWorkoutsByPeriod ctx workouts period).filter
               (fun w => qualifies exerciseId w)).length,
             pattern := .Stable, restDaysDistribution := [], restDaysData := [],
             trend := none } := by
  have hnil : calculateRestDays (filterWorkoutsByPeriod ctx workouts period) exerciseId = [] :=
    calculateRestDays_nil_of_lt_two _ _ (by omega)
  unfold useExerciseConsistencyData
  rw [if_neg hne]
  simp only [hnil, List.length_nil, if_pos rfl, if_true]

/-- Witness for C9: a single qualifying workout in the current-year window. -/
theorem useExerciseConsistencyData_degenerate_witness :
    useExerciseConsistencyData ⟨0, 0, 0, 0, 0, 2026⟩ [⟨5, [⟨"a", 3⟩]⟩] "a" .currentYear =
      some { medianRestDays := 0, minRestDays := 0, maxRestDays := 0,
             workoutCount := ((filterWorkoutsByPeriod ⟨0, 0, 0, 0, 0, 2026⟩
               [⟨5, [⟨"a", 3⟩]⟩] .currentYear).filter
               (fun w => qualifies "a" w)).length,
             pattern := .Stable, restDaysDistribution := [], restDaysData := [],
             trend := none } :=
  useExerciseConsistencyData_degenerate ⟨0, 0, 0, 0, 0, 2026⟩ [⟨5, [⟨"a", 3⟩]⟩] "a"
    .currentYear (by decide) (by decide)

/-! ## Year comparison hook (`useExerciseYearComparison`) -/

/-- One year's summary inside `YearComparisonData`. -/
structure YearSummary where
  year : ℤ
  workoutCount : ℕ
  medianRestDays : ℚ
  pattern : ConsistencyPattern
deriving DecidableEq

/-- `YearComparisonData` from `useExerciseConsistencyData.ts`. -/
structure YearComparisonData where
  currentYear : YearSummary
  lastYear : YearSummary
  workoutChange : ℤ
  restDaysChange : ℚ
  isImproved : Bool
deriving DecidableEq

/-- `useExerciseYearComparison` from `useExerciseConsistencyData.ts` (the
pure computation inside the `useMemo`). -/
def useExerciseYearComparison (ctx : ClockContext) (workouts : List Workout)
    (exerciseId : String) : Option YearComparisonData :=
  if exerciseId = "" then none
  else
    let currentYearWorkouts := filterWorkoutsByPeriod ctx workouts .currentYear
    let currentRestDaysData := calculateRestDays currentYearWorkouts exerciseId
    let currentRestDays := currentRestDaysData.map (fun d => d.days)
    let currentWorkouts := currentYearWorkouts.filter (fun w => qualifies exerciseId w)
    let lastYearWorkoutsFiltered := filterWorkoutsByPeriod ctx workouts .lastYear
    let lastRestDaysData := calculateRestDays lastYearWorkoutsFiltered exerciseId
    let lastRestDays := lastRestDaysData.map (fun d => d.days)
    let lastYearWorkoutsList := lastYearWorkoutsFiltered.filter (fun w => qualifies exerciseId w)
    let currentMedian := if 0 < currentRestDays.length then calculateMedian currentRestDays else 0
    let lastMedian := if 0 < lastRestDays.length then calculateMedian lastRestDays else 0
    let workoutChange : ℤ := (currentWorkouts.length : ℤ) - (lastYearWorkoutsList.length : ℤ)
    let restDaysChange := lastMedian - currentMedian
    let isImproved : Bool :=
      decide (0 < workoutChange) || (decide (workoutChange = 0) && decide (0 < restDaysChange))
    some {
      currentYear := { year := ctx.currentYearNum, workoutCount := currentWorkouts.length,
                       medianRestDays := roundTenths currentMedian,
                       pattern := getConsistencyPattern currentRestDays },
      lastYear := { year := ctx.currentYearNum - 1, workoutCount := lastYearWorkoutsList.length,
                    medianRestDays := roundTenths lastMedian,
                    pattern := getConsistencyPattern lastRestDays },
      workoutChange := workoutChange,
      restDaysChange := roundTenths restDaysChange,
      isImproved := isImproved }

/-- Count of qualifying workouts in the current calendar year. -/
def yearCompCurrentCount (ctx : ClockContext) (workouts : List Workout)
    (exerciseId : String) : ℕ :=
  ((filterWorkoutsByPeriod ctx workouts .currentYear).filter
    (fun w => qualifies exerciseId w)).length

/-- Count of qualifying workouts in the previous calendar year. -/
def yearCompLastCount (ctx : ClockContext) (workouts : List Workout)
    (exerciseId : String) : ℕ :=
  ((filterWorkoutsByPeriod ctx workouts .lastYear).filter
    (fun w => qualifies exerciseId w)).length

/-- Gap values of the current calendar year's rest intervals. -/
def yearCompCurrentGaps (ctx : ClockContext) (workouts : List Workout)
    (exerciseId : String) : List ℚ :=
  (calculateRestDays (filterWorkoutsByPeriod ctx workouts .currentYear) exerciseId).map
    (fun d => d.days)

/-- Gap values of the previous calendar year's rest intervals. -/
def yearCompLastGaps (ctx : ClockContext) (workouts : List Workout)
    (exerciseId : String) : List ℚ :=
  (calculateRestDays (filterWorkoutsByPeriod ctx workouts .lastYear) exerciseId).map
    (fun d => d.days)

/-- The length-guarded median of the source is the plain median
(`calculateMedian [] = 0` already). -/
theorem guarded_median (v : List ℚ) :
    (if 0 < v.length then calculateMedian v else 0) = calculateMedian v := by
  by_cases h : 0 < v.length
  · rw [if_pos h]
  · rw [if_neg h]
    have hv : v = [] := List.length_eq_zero.mp (by omega)
    rw [hv]
    unfold calculateMedian
    simp

/-- One-decimal rounding is the identity on a difference of half-integers. -/
theorem roundTenths_halves_sub (a b : ℚ) (ha : ∃ k : ℤ, a = (k : ℚ) / 2)
    (hb : ∃ k : ℤ, b = (k : ℚ) / 2) : roundTenths (a - b) = a - b := by
  obtain ⟨k, rfl⟩ := ha
  obtain ⟨j, rfl⟩ := hb
  unfold roundTenths
  have h : ((k : ℚ) / 2 - (j : ℚ) / 2) * 10 = ((5 * (k - j) : ℤ) : ℚ) := by
    push_cast; ring
  rw [h, round_intCast]
  push_cast; ring

/-- Every gap value list produced by `calculateRestDays` is integer-valued. -/
theorem calculateRestDays_gaps_int (workouts : List Workout) (exerciseId : String) :
    ∀ x ∈ (calculateRestDays workouts exerciseId).map (fun d => d.days),
      ∃ k : ℤ, x = (k : ℚ) := by
  intro x hx
  obtain ⟨d, hd, rfl⟩ := List.mem_map.mp hx
  exact calculateRestDays_days_int workouts exerciseId d hd

/-- Claim C7: the year comparison returns `workoutChange` equal to the
current-year qualifying count minus the last-year count, `restDaysChange`
equal to the last-year median gap minus the current-year median gap (the
one-decimal rounding is the identity because medians of integer gap lists
are half-integers), and `isImproved` true exactly when `workoutChange > 0`
or (`workoutChange = 0` and `restDaysChange > 0`);  in particular 0
current-year and 5 last-year qualifying workouts give `workoutChange = −5`
and `isImproved = false`. -/
theorem useExerciseYearComparison_formulas (ctx : ClockContext)
    (workouts : List Workout) (exerciseId : String) (hne : exerciseId ≠ "") :
    ∃ r, useExerciseYearComparison ctx workouts exerciseId = some r ∧
      r.workoutChange = (yearCompCurrentCount ctx workouts exerciseId : ℤ) -
        (yearCompLastCount ctx workouts exerciseId : ℤ) ∧
      r.restDaysChange = calculateMedian (yearCompLastGaps ctx workouts exerciseId) -
        calculateMedian (yearCompCurrentGaps ctx workouts exerciseId) ∧
      (r.isImproved = true ↔
        (0 < r.workoutChange ∨ (r.workoutChange = 0 ∧ 0 < r.restDaysChange))) ∧
      (yearCompCurrentCount ctx workouts exerciseId = 0 →
        yearCompLastCount ctx workouts exerciseId = 5 →
        r.workoutChange = -5 ∧ r.isImproved = false) := by
  unfold useExerciseYearComparison
  rw [if_neg hne]
  simp only [guarded_median]
  have hrd : roundTenths
      (calculateMedian (yearCompLastGaps ctx workouts exerciseId) -
        calculateMedian (yearCompCurrentGaps ctx workouts exerciseId)) =
      calculateMedian (yearCompLastGaps ctx workouts exerciseId) -
        calculateMedian (yearCompCurrentGaps ctx workouts exerciseId) :=
    roundTenths_halves_sub _ _
      (calculateMedian_int_valued _ (calculateRestDays_gaps_int _ _))
      (calculateMedian_int_valued _ (calculateRestDays_gaps_int _ _))
  refine ⟨_, rfl, rfl, ?_, ?_, ?_⟩
  · exact hrd
  · show (decide (0 < ((yearCompCurrentCount ctx workouts exerciseId : ℤ) -
        (yearCompLastCount ctx workouts exerciseId : ℤ))) ||
      (decide (((yearCompCurrentCount ctx workouts exerciseId : ℤ) -
        (yearCompLastCount ctx workouts exerciseId : ℤ)) = 0) &&
       decide (0 < calculateMedian (yearCompLastGaps ctx workouts exerciseId) -
        calculateMedian (yearCompCurrentGaps ctx workouts exerciseId)))) = true ↔
      (0 < ((yearCompCurrentCount ctx workouts exerciseId : ℤ) -
        (yearCompLastCount ctx workouts exerciseId : ℤ)) ∨
       (((yearCompCurrentCount ctx workouts exerciseId : ℤ) -
        (yearCompLastCount ctx workouts exerciseId : ℤ)) = 0 ∧
        0 < roundTenths (calculateMedian (yearCompLastGaps ctx workouts exerciseId) -
          calculateMedian (yearCompCurrentGaps ctx workouts exerciseId))))
    rw [hrd]
    simp only [Bool.or_eq_true, Bool.and_eq_true, decide_eq_true_iff]
  · intro hc hl
    have hwc : (yearCompCurrentCount ctx workouts exerciseId : ℤ) -
        (yearCompLastCount ctx workouts exerciseId : ℤ) = -5 := by
      rw [hc, hl]; norm_num
    constructor
    · show (yearCompCurrentCount ctx workouts exerciseId : ℤ) -
        (yearCompLastCount ctx workouts exerciseId : ℤ) = -5
      exact hwc
    · show (decide (0 < ((yearCompCurrentCount ctx workouts exerciseId : ℤ) -
          (yearCompLastCount ctx workouts exerciseId : ℤ))) ||
        (decide (((yearCompCurrentCount ctx workouts exerciseId : ℤ) -
          (yearCompLastCount ctx workouts exerciseId : ℤ)) = 0) &&
         decide (0 < calculateMedian (yearCompLastGaps ctx workouts exerciseId) -
          calculateMedian (yearCompCurrentGaps ctx workouts exerciseId)))) = false
      rw [hwc]
      simp

/-- Witness for C7: a log with 0 current-year and 5 last-year qualifying
workouts (current year starts at time 1000, last year spans [0, 999]). -/
theorem useExerciseYearComparison_formulas_witness :
    ∃ r, useExerciseYearComparison ⟨1000, 0, 1000, 0, 999, 2026⟩
        [⟨0, [⟨"a", 1⟩]⟩, ⟨1, [⟨"a", 1⟩]⟩, ⟨2, [⟨"a", 1⟩]⟩, ⟨3, [⟨"a", 1⟩]⟩, ⟨4, [⟨"a", 1⟩]⟩]
        "a" = some r ∧
      r.workoutChange = (yearCompCurrentCount ⟨1000, 0, 1000, 0, 999, 2026⟩
        [⟨0, [⟨"a", 1⟩]⟩, ⟨1, [⟨"a", 1⟩]⟩, ⟨2, [⟨"a", 1⟩]⟩, ⟨3, [⟨"a", 1⟩]⟩, ⟨4, [⟨"a", 1⟩]⟩]
        "a" : ℤ) - (yearCompLastCount ⟨1000, 0, 1000, 0, 999, 2026⟩
        [⟨0, [⟨"a", 1⟩]⟩, ⟨1, [⟨"a", 1⟩]⟩, ⟨2, [⟨"a", 1⟩]⟩, ⟨3, [⟨"a", 1⟩]⟩, ⟨4, [⟨"a", 1⟩]⟩]
        "a" : ℤ) ∧
      r.restDaysChange = calculateMedian (yearCompLastGaps ⟨1000, 0, 1000, 0, 999, 2026⟩
        [⟨0, [⟨"a", 1⟩]⟩, ⟨1, [⟨"a", 1⟩]⟩, ⟨2, [⟨"a", 1⟩]⟩, ⟨3, [⟨"a", 1⟩]⟩, ⟨4, [⟨"a", 1⟩]⟩]
        "a") - calculateMedian (yearCompCurrentGaps ⟨1000, 0, 1000, 0, 999, 2026⟩
        [⟨0, [⟨"a", 1⟩]⟩, ⟨1, [⟨"a", 1⟩]⟩, ⟨2, [⟨"a", 1⟩]⟩, ⟨3, [⟨"a", 1⟩]⟩, ⟨4, [⟨"a", 1⟩]⟩]
        "a") ∧
      (r.isImproved = true ↔
        (0 < r.workoutChange ∨ (r.workoutChange = 0 ∧ 0 < r.restDaysChange))) ∧
      (yearCompCurrentCount ⟨1000, 0, 1000, 0, 999, 2026⟩
        [⟨0, [⟨"a", 1⟩]⟩, ⟨1, [⟨"a", 1⟩]⟩, ⟨2, [⟨"a", 1⟩]⟩, ⟨3, [⟨"a", 1⟩]⟩, ⟨4, [⟨"a", 1⟩]⟩]
        "a" = 0 →
       yearCompLastCount ⟨1000, 0, 1000, 0, 999, 2026⟩
        [⟨0, [⟨"a", 1⟩]⟩, ⟨1, [⟨"a", 1⟩]⟩, ⟨2, [⟨"a", 1⟩]⟩, ⟨3, [⟨"a", 1⟩]⟩, ⟨4, [⟨"a", 1⟩]⟩]
        "a" = 5 →
       r.workoutChange = -5 ∧ r.isImproved = false) :=
  useExerciseYearComparison_formulas ⟨1000, 0, 1000, 0, 999, 2026⟩
    [⟨0, [⟨"a", 1⟩]⟩, ⟨1, [⟨"a", 1⟩]⟩, ⟨2, [⟨"a", 1⟩]⟩, ⟨3, [⟨"a", 1⟩]⟩, ⟨4, [⟨"a", 1⟩]⟩]
    "a" (by decide)

/-! ## Set-position performance tracker (`maxRepUtils.ts`) -/

/-- `MaxRepRecord` from `types/index.ts`. -/
structure MaxRepRecord where
  exerciseId : String
  setPosition : ℤ
  maxReps : ℤ
  date : ℤ
deriving DecidableEq

/-- The `timeframe` parameter of `calculateMaxReps`;  an omitted argument
behaves as `all` (both give cutoff `new Date(0)`). -/
inductive Timeframe where
  | all
  | threeMonths
deriving DecidableEq

/-- The cutoff date of `calculateMaxReps`: 90 days before now for `3months`,
the epoch (`new Date(0)`) otherwise. -/
def repCutoff (nowMs : ℤ) : Timeframe → ℤ
  | .threeMonths => nowMs - 90 * 24 * 60 * 60 * 1000
  | .all => 0

/-- The `p`-th set of the exercise within one workout: filter the workout's
sets by exercise, number them `1, 2, …` in stored order, and pick the one at
`position === setPosition`. -/
def setAtPosition (w : Workout) (exerciseId : String) (setPosition : ℤ) :
    Option WorkoutSet :=
  (((w.sets.filter (fun s => s.exerciseId == exerciseId)).enum).find?
    (fun p => ((p.1 : ℤ) + 1) == setPosition)).map (fun p => p.2)

/-- The body of the `workouts.forEach` loop of `calculateMaxReps`: skip
workouts before the cutoff, and replace the running record only on a
strictly greater value. -/
def maxStep (nowMs : ℤ) (exerciseId : String) (setPosition : ℤ) (timeframe : Timeframe)
    (maxRecord : Option MaxRepRecord) (workout : Workout) : Option MaxRepRecord :=
  if workout.date < repCutoff nowMs timeframe then maxRecord
  else
    match setAtPosition workout exerciseId setPosition with
    | none => maxRecord
    | some s =>
      match maxRecord with
      | none => some ⟨exerciseId, setPosition, s.reps, workout.date⟩
      | some r =>
        if r.maxReps < s.reps then some ⟨exerciseId, setPosition, s.reps, workout.date⟩
        else maxRecord

/-- `calculateMaxReps` from `maxRepUtils.ts`. -/
def calculateMaxReps (nowMs : ℤ) (workouts : List Workout) (exerciseId : String)
    (setPosition : ℤ) (timeframe : Timeframe) : Option MaxRepRecord :=
  workouts.foldl (maxStep nowMs exerciseId setPosition timeframe) none

/-- The qualifying `(date, value)` samples of `calculateMaxReps`, in the
order the workout list presents them. -/
def qualVals (nowMs : ℤ) (workouts : List Workout) (exerciseId : String)
    (setPosition : ℤ) (timeframe : Timeframe) : List (ℤ × ℤ) :=
  workouts.filterMap (fun w =>
    if w.date < repCutoff nowMs timeframe then none
    else (setAtPosition w exerciseId setPosition).map (fun s => (w.date, s.reps)))

/-- One running-maximum step over a `(date, value)` sample. -/
def bestStep (exerciseId : String) (setPosition : ℤ)
    (acc : Option MaxRepRecord) (x : ℤ × ℤ) : Option MaxRepRecord :=
  match acc with
  | none => some ⟨exerciseId, setPosition, x.2, x.1⟩
  | some r => if r.maxReps < x.2 then some ⟨exerciseId, setPosition, x.2, x.1⟩ else acc

/-- The running maximum over the qualifying samples. -/
def runBest (exerciseId : String) (setPosition : ℤ) (l : List (ℤ × ℤ)) :
    Option MaxRepRecord :=
  l.foldl (bestStep exerciseId setPosition) none

theorem foldl_maxStep_eq (nowMs : ℤ) (exerciseId : String) (setPosition : ℤ)
    (timeframe : Timeframe) :
    ∀ (workouts : List Workout) (acc : Option MaxRepRecord),
      workouts.foldl (maxStep nowMs exerciseId setPosition timeframe) acc =
        (qualVals nowMs workouts exerciseId setPosition timeframe).foldl
          (bestStep exerciseId setPosition) acc
  | [], acc => rfl
  | w :: ws, acc => by
    rw [List.foldl_cons]
    by_cases hd : w.date < repCutoff nowMs timeframe
    · have hq : qualVals nowMs (w :: ws) exerciseId setPosition timeframe =
          qualVals nowMs ws exerciseId setPosition timeframe := by
        unfold qualVals
        rw [List.filterMap_cons, if_pos hd]
      rw [show maxStep nowMs exerciseId setPosition timeframe acc w = acc from by
        unfold maxStep; rw [if_pos hd], hq]
      exact foldl_maxStep_eq nowMs exerciseId setPosition timeframe ws acc
    · cases hsp : setAtPosition w exerciseId setPosition with
      | none =>
        have hq : qualVals nowMs (w :: ws) exerciseId setPosition timeframe =
            qualVals nowMs ws exerciseId setPosition timeframe := by
          unfold qualVals
          rw [List.filterMap_cons, if_neg hd, hsp]
          rfl
        rw [show maxStep nowMs exerciseId setPosition timeframe acc w = acc from by
          unfold maxStep; rw [if_neg hd, hsp], hq]
        exact foldl_maxStep_eq nowMs exerciseId setPosition timeframe ws acc
      | some s =>
        have hq : qualVals nowMs (w :: ws) exerciseId setPosition timeframe =
            (w.date, s.reps) :: qualVals nowMs ws exerciseId setPosition timeframe := by
          unfold qualVals
          rw [List.filterMap_cons, if_neg hd, hsp]
          rfl
        rw [show maxStep nowMs exerciseId setPosition timeframe acc w =
            bestStep exerciseId setPosition acc (w.date, s.reps) from by
          unfold maxStep bestStep; rw [if_neg hd, hsp], hq, List.foldl_cons]
        exact foldl_maxStep_eq nowMs exerciseId setPosition timeframe ws _

/-- `calculateMaxReps` is the running maximum over its qualifying samples. -/
theorem calculateMaxReps_eq_runBest (nowMs : ℤ) (workouts : List Workout)
    (exerciseId : String) (setPosition : ℤ) (timeframe : Timeframe) :
    calculateMaxReps nowMs workouts exerciseId setPosition timeframe =
      runBest exerciseId setPosition
        (qualVals nowMs workouts exerciseId setPosition timeframe) :=
  foldl_maxStep_eq nowMs exerciseId setPosition timeframe workouts none

/-- The running maximum returns the first sample attaining the maximum
value, in list order. -/
theorem runBest_spec (exerciseId : String) (setPosition : ℤ) (l : List (ℤ × ℤ)) :
    l ≠ [] →
    ∃ pre x post, l = pre ++ x :: post ∧
      runBest exerciseId setPosition l = some ⟨exerciseId, setPosition, x.2, x.1⟩ ∧
      (∀ y ∈ pre, y.2 < x.2) ∧
      (∀ y ∈ l, y.2 ≤ x.2) := by
  induction l using List.reverseRecOn with
  | nil => intro h; exact absurd rfl h
  | append_singleton l a ih =>
    intro _
    by_cases hl : l = []
    · subst hl
      exact ⟨[], a, [], rfl, rfl, by simp, by simp⟩
    · obtain ⟨pre, x, post, heq, hrun, hpre, hall⟩ := ih hl
      have hstep : runBest exerciseId setPosition (l ++ [a]) =
          (if x.2 < a.2 then some ⟨exerciseId, setPosition, a.2, a.1⟩
           else some ⟨exerciseId, setPosition, x.2, x.1⟩) := by
        unfold runBest at hrun ⊢
        rw [List.foldl_append, hrun]
        rfl
      by_cases hgt : x.2 < a.2
      · refine ⟨l, a, [], by simp, ?_, ?_, ?_⟩
        · rw [hstep, if_pos hgt]
        · intro y hy
          exact lt_of_le_of_lt (hall y hy) hgt
        · intro y hy
          rcases List.mem_append.mp hy with hy | hy
          · exact le_of_lt (lt_of_le_of_lt (hall y hy) hgt)
          · have : y = a := by simpa using hy
            subst this
            exact le_refl _
      · refine ⟨pre, x, post ++ [a], by rw [heq]; simp, ?_, hpre, ?_⟩
        · rw [hstep, if_neg hgt]
        · intro y hy
          rcases List.mem_append.mp hy with hy | hy
          · exact hall y hy
          · have : y = a := by simpa using hy
            subst this
            exact le_of_not_lt hgt

/-- Every qualifying sample of a workout carries that workout's date. -/
theorem qualVals_fst (nowMs : ℤ) (exerciseId : String) (setPosition : ℤ)
    (timeframe : Timeframe) (w : Workout) (b : ℤ × ℤ)
    (hb : b ∈ (if w.date < repCutoff nowMs timeframe then none
      else (setAtPosition w exerciseId setPosition).map (fun s => (w.date, s.reps)))) :
    b.1 = w.date := by
  by_cases hc : w.date < repCutoff nowMs timeframe
  · rw [if_pos hc] at hb
    simp at hb
  · rw [if_neg hc] at hb
    obtain ⟨s, hs, hsb⟩ := Option.map_eq_some'.mp hb
    rw [← hsb]

/-- Claim C6 (amended): on a date-ascending workout list, `calculateMaxReps`
returns the maximum value among the `p`-th sets of the exercise inside the
window together with the date on which that maximum was first reached — the
running maximum updates only on strictly greater values, so among tied
maximal values the earliest achieving date is kept.  (On an arbitrarily
ordered list the tie goes to the first occurrence in *list* order, see the
counterexample.) -/
theorem calculateMaxReps_first_max (nowMs : ℤ) (workouts : List Workout)
    (exerciseId : String) (setPosition : ℤ) (timeframe : Timeframe)
    (hsorted : workouts.Pairwise (fun a b => a.date ≤ b.date))
    (hne : qualVals nowMs workouts exerciseId setPosition timeframe ≠ []) :
    ∃ r, calculateMaxReps nowMs workouts exerciseId setPosition timeframe = some r ∧
      r.exerciseId = exerciseId ∧ r.setPosition = setPosition ∧
      (r.date, r.maxReps) ∈ qualVals nowMs workouts exerciseId setPosition timeframe ∧
      (∀ y ∈ qualVals nowMs workouts exerciseId setPosition timeframe, y.2 ≤ r.maxReps) ∧
      (∀ y ∈ qualVals nowMs workouts exerciseId setPosition timeframe,
        y.2 = r.maxReps → r.date ≤ y.1) := by
  obtain ⟨pre, x, post, heq, hrun, hpre, hall⟩ :=
    runBest_spec exerciseId setPosition _ hne
  have hq : (qualVals nowMs workouts exerciseId setPosition timeframe).Pairwise
      (fun a b => a.1 ≤ b.1) := by
    unfold qualVals
    rw [List.pairwise_filterMap]
    refine hsorted.imp_of_mem ?_
    intro a b _ _ hab
    intro y hy y2 hy2
    rw [qualVals_fst nowMs exerciseId setPosition timeframe a y hy,
        qualVals_fst nowMs exerciseId setPosition timeframe b y2 hy2]
    exact hab
  refine ⟨⟨exerciseId, setPosition, x.2, x.1⟩, ?_, rfl, rfl, ?_, ?_, ?_⟩
  · rw [calculateMaxReps_eq_runBest, hrun]
  · show (x.1, x.2) ∈ _
    rw [heq]
    exact List.mem_append.mpr (Or.inr (List.mem_cons.mpr (Or.inl (by cases x; rfl))))
  · exact hall
  · intro y hy hy2
    show x.1 ≤ y.1
    rw [heq] at hy
    rcases List.mem_append.mp hy with hy | hy
    · exact absurd hy2 (ne_of_lt (hpre y hy))
    · rcases List.mem_cons.mp hy with rfl | hy
      · exact le_refl _
      · have hx : ∀ b ∈ x :: post, x.1 ≤ b.1 := by
          have h2 := (List.pairwise_append.mp (heq ▸ hq)).2.1
          intro b hb
          rcases List.mem_cons.mp hb with rfl | hb
          · exact le_refl _
          · exact (List.pairwise_cons.mp h2).1 b hb
        exact hx y (List.mem_cons.mpr (Or.inr hy))

/-- Witness for C6: values `[8, 10, 10]` on days 0, 1, 2 — the record is 10,
first reached on day 1 (timestamp 86 400 000). -/
theorem calculateMaxReps_first_max_witness :
    (∃ r, calculateMaxReps 0
        [⟨0, [⟨"a", 8⟩]⟩, ⟨86400000, [⟨"a", 10⟩]⟩, ⟨172800000, [⟨"a", 10⟩]⟩]
        "a" 1 .all = some r ∧
      r.exerciseId = "a" ∧ r.setPosition = 1 ∧
      (r.date, r.maxReps) ∈ qualVals 0
        [⟨0, [⟨"a", 8⟩]⟩, ⟨86400000, [⟨"a", 10⟩]⟩, ⟨172800000, [⟨"a", 10⟩]⟩] "a" 1 .all ∧
      (∀ y ∈ qualVals 0
        [⟨0, [⟨"a", 8⟩]⟩, ⟨86400000, [⟨"a", 10⟩]⟩, ⟨172800000, [⟨"a", 10⟩]⟩] "a" 1 .all,
        y.2 ≤ r.maxReps) ∧
      (∀ y ∈ qualVals 0
        [⟨0, [⟨"a", 8⟩]⟩, ⟨86400000, [⟨"a", 10⟩]⟩, ⟨172800000, [⟨"a", 10⟩]⟩] "a" 1 .all,
        y.2 = r.maxReps → r.date ≤ y.1))
    ∧ calculateMaxReps 0
        [⟨0, [⟨"a", 8⟩]⟩, ⟨86400000, [⟨"a", 10⟩]⟩, ⟨172800000, [⟨"a", 10⟩]⟩]
        "a" 1 .all = some ⟨"a", 1, 10, 86400000⟩ :=
  ⟨calculateMaxReps_first_max 0
      [⟨0, [⟨"a", 8⟩]⟩, ⟨86400000, [⟨"a", 10⟩]⟩, ⟨172800000, [⟨"a", 10⟩]⟩]
      "a" 1 .all (by decide) (by decide),
   by decide⟩

/-- Counterexample to C6 as stated: the source iterates the workout list in
the order it is given (no date sort), so with the later-dated workout first
a tied maximum keeps the later date (day 5), not the earliest achieving
date (day 3). -/
theorem calculateMaxReps_ties_keep_list_order :
    calculateMaxReps 0 [⟨432000000, [⟨"a", 10⟩]⟩, ⟨259200000, [⟨"a", 10⟩]⟩] "a" 1 .all =
      some ⟨"a", 1, 10, 432000000⟩
    ∧ (259200000, 10) ∈ qualVals 0
        [⟨432000000, [⟨"a", 10⟩]⟩, ⟨259200000, [⟨"a", 10⟩]⟩] "a" 1 .all
    ∧ (259200000 : ℤ) < 432000000 := by
  exact ⟨by decide, by decide, by decide⟩

/-! ## Training percentages (`Stats.tsx`) -/

/-- `Date#getDay` under the fixed-offset day policy: day 0 (1970-01-01) was
a Thursday, so the weekday index (0 = Sunday) is `(day + 4) mod 7`. -/
def jsGetDay (day : ℤ) : ℤ := (day + 4) % 7

/-- The number of distinct window days on which at least one workout of the
log falls (the source matches days by `toDateString()` equality, which under
the fixed-offset policy is equality of calendar-day indices;  the window
days are pairwise distinct by construction, so this is a distinct-day
count). -/
def trainedDaysIn (workouts : List Workout) (days : List ℤ) : ℕ :=
  (days.filter (fun day => workouts.any (fun w => calendarDay w.date == day))).length

/-- The Monday-to-Sunday week containing today, as in
`getCurrentWeekPercentage` (`mondayOffset` is −6 on Sunday, `1 − getDay()`
otherwise). -/
def weekDays (todayDay : ℤ) : List ℤ :=
  let currentDay := jsGetDay todayDay
  let mondayOffset : ℤ := if currentDay = 0 then -6 else 1 - currentDay
  let monday := todayDay + mondayOffset
  (List.range 7).map (fun (i : ℕ) => monday + (i : ℤ))

/-- `getCurrentWeekPercentage` from `Stats.tsx`: trained days are counted
over the whole 7-day week, the denominator counts only the week days not
after today. -/
def getCurrentWeekPercentage (workouts : List Workout) (todayDay : ℤ) : ℤ :=
  let daysInWeek := weekDays todayDay
  let workoutDays := trainedDaysIn workouts daysInWeek
  let daysPassedThisWeek := (daysInWeek.filter (fun day => decide (day ≤ todayDay))).length
  round (((workoutDays : ℚ) / (daysPassedThisWeek : ℚ)) * 100)

/-- The `while (current <= last) push(current++)` day loop of the source:
all calendar days from `a` to `b` inclusive. -/
def daysFromTo (a b : ℤ) : List ℤ :=
  (List.range (b - a + 1).toNat).map (fun (i : ℕ) => a + (i : ℤ))

/-- `getCurrentMonthPercentage` from `Stats.tsx`: days from the first of the
month through today. -/
def getCurrentMonthPercentage (workouts : List Workout)
    (monthStartDay todayDay : ℤ) : ℤ :=
  let daysInMonth := daysFromTo monthStartDay todayDay
  let workoutDays := trainedDaysIn workouts daysInMonth
  round (((workoutDays : ℚ) / (daysInMonth.length : ℚ)) * 100)

/-- `getCurrentYearPercentage` from `Stats.tsx`: days from January 1 through
today. -/
def getCurrentYearPercentage (workouts : List Workout)
    (yearStartDay todayDay : ℤ) : ℤ :=
  let daysInYear := daysFromTo yearStartDay todayDay
  let workoutDays := trainedDaysIn workouts daysInYear
  round (((workoutDays : ℚ) / (daysInYear.length : ℚ)) * 100)

theorem daysFromTo_length (a b : ℤ) :
    (daysFromTo a b).length = (b - a + 1).toNat := by
  unfold daysFromTo
  rw [List.length_map, List.length_range]

/-- A rounded ratio of a part over a positive whole lies in `[0, 100]`. -/
theorem round_pct_bounds (w e : ℕ) (hwe : w ≤ e) (he : 0 < e) :
    0 ≤ round (((w : ℚ) / (e : ℚ)) * 100) ∧ round (((w : ℚ) / (e : ℚ)) * 100) ≤ 100 := by
  have he2 : (0 : ℚ) < (e : ℚ) := by exact_mod_cast he
  have hx0 : (0 : ℚ) ≤ ((w : ℚ) / (e : ℚ)) * 100 := by positivity
  have hx1 : ((w : ℚ) / (e : ℚ)) * 100 ≤ 100 := by
    have h1 : (w : ℚ) / (e : ℚ) ≤ 1 := by
      rw [div_le_one he2]
      exact_mod_cast hwe
    have := mul_le_mul_of_nonneg_right h1 (by norm_num : (0 : ℚ) ≤ 100)
    linarith
  constructor
  · rw [round_eq]
    exact Int.floor_nonneg.mpr (by linarith)
  · rw [round_eq]
    calc ⌊((w : ℚ) / (e : ℚ)) * 100 + 1 / 2⌋ ≤ ⌊(201 / 2 : ℚ)⌋ :=
          Int.floor_mono (by linarith)
      _ = 100 := by norm_num

/-- Filtering with a weaker predicate keeps at least as many elements. -/
theorem filter_length_mono {α : Type} (l : List α) (p q : α → Bool)
    (h : ∀ x ∈ l, p x = true → q x = true) :
    (l.filter p).length ≤ (l.filter q).length := by
  induction l with
  | nil => exact le_refl _
  | cons a t ih =>
    have ih2 := ih (fun x hx hpx => h x (List.mem_cons.mpr (Or.inr hx)) hpx)
    rw [List.filter_cons, List.filter_cons]
    by_cases hp : p a = true
    · rw [if_pos hp, if_pos (h a (List.mem_cons.mpr (Or.inl rfl)) hp)]
      simpa using ih2
    · rw [if_neg hp]
      by_cases hq : q a = true
      · rw [if_pos hq]
        exact le_trans ih2 (by simp)
      · rw [if_neg hq]
        exact ih2

/-- The week always contains its Monday, which is not after today. -/
theorem weekDays_monday_le (todayDay : ℤ) :
    ∃ monday ∈ weekDays todayDay, monday ≤ todayDay := by
  have h0 : 0 ≤ (todayDay + 4) % 7 := Int.emod_nonneg _ (by norm_num)
  have h7 : (todayDay + 4) % 7 < 7 := Int.emod_lt_of_pos _ (by norm_num)
  refine ⟨todayDay + (if (todayDay + 4) % 7 = 0 then (-6 : ℤ) else 1 - (todayDay + 4) % 7),
    ?_, ?_⟩
  · unfold weekDays jsGetDay
    exact List.mem_map.mpr ⟨0, List.mem_range.mpr (by norm_num), by simp⟩
  · by_cases hz : (todayDay + 4) % 7 = 0
    · rw [if_pos hz]; omega
    · rw [if_neg hz]; omega

/-- At least one day of the current week has elapsed. -/
theorem weekElapsed_pos (todayDay : ℤ) :
    0 < ((weekDays todayDay).filter (fun day => decide (day ≤ todayDay))).length := by
  obtain ⟨m, hm, hle⟩ := weekDays_monday_le todayDay
  exact List.length_pos.mpr
    (List.ne_nil_of_mem (List.mem_filter.mpr ⟨hm, by simpa using hle⟩))

/-- Claim C8 (amended): for the month and year periods the training
percentage equals `round(100 × distinctTrainedDaysInWindow /
daysElapsedInWindowUpToToday)` and always lies in `[0, 100]`;  for the week
period the same formula holds with the *whole* Monday–Sunday week as the
trained-day window, so the bound `[0, 100]` holds whenever no workout is
dated after today, but a future-dated workout inside the current week can
push the percentage above 100 (see the counterexample). -/
theorem trainingPercentage_formula_and_bounds (workouts : List Workout)
    (todayDay monthStartDay yearStartDay : ℤ)
    (hm : monthStartDay ≤ todayDay) (hy : yearStartDay ≤ todayDay) :
    (getCurrentMonthPercentage workouts monthStartDay todayDay =
        round (100 * ((trainedDaysIn workouts (daysFromTo monthStartDay todayDay) : ℚ) /
          ((daysFromTo monthStartDay todayDay).length : ℚ)))
      ∧ 0 ≤ getCurrentMonthPercentage workouts monthStartDay todayDay
      ∧ getCurrentMonthPercentage workouts monthStartDay todayDay ≤ 100)
    ∧ (getCurrentYearPercentage workouts yearStartDay todayDay =
        round (100 * ((trainedDaysIn workouts (daysFromTo yearStartDay todayDay) : ℚ) /
          ((daysFromTo yearStartDay todayDay).length : ℚ)))
      ∧ 0 ≤ getCurrentYearPercentage workouts yearStartDay todayDay
      ∧ getCurrentYearPercentage workouts yearStartDay todayDay ≤ 100)
    ∧ (getCurrentWeekPercentage workouts todayDay =
        round (100 * ((trainedDaysIn workouts (weekDays todayDay) : ℚ) /
          (((weekDays todayDay).filter (fun day => decide (day ≤ todayDay))).length : ℚ)))
      ∧ ((∀ w ∈ workouts, calendarDay w.date ≤ todayDay) →
          0 ≤ getCurrentWeekPercentage workouts todayDay
          ∧ getCurrentWeekPercentage workouts todayDay ≤ 100)) := by
  refine ⟨⟨?_, ?_⟩, ⟨?_, ?_⟩, ⟨?_, ?_⟩⟩
  · show round (((trainedDaysIn workouts (daysFromTo monthStartDay todayDay) : ℚ) /
      ((daysFromTo monthStartDay todayDay).length : ℚ)) * 100) = _
    congr 1
    ring
  · exact round_pct_bounds _ _ (List.length_filter_le _ _)
      (by rw [daysFromTo_length]; omega)
  · show round (((trainedDaysIn workouts (daysFromTo yearStartDay todayDay) : ℚ) /
      ((daysFromTo yearStartDay todayDay).length : ℚ)) * 100) = _
    congr 1
    ring
  · exact round_pct_bounds _ _ (List.length_filter_le _ _)
      (by rw [daysFromTo_length]; omega)
  · show round (((trainedDaysIn workouts (weekDays todayDay) : ℚ) /
      (((weekDays todayDay).filter (fun day => decide (day ≤ todayDay))).length : ℚ)) * 100) = _
    congr 1
    ring
  · intro hfut
    refine round_pct_bounds _ _ ?_ (weekElapsed_pos todayDay)
    refine filter_length_mono _ _ _ ?_
    intro day _ hany
    obtain ⟨w, hw, hbeq⟩ := List.any_eq_true.mp hany
    have hday : calendarDay w.date = day := by simpa using hbeq
    simpa [← hday] using hfut w hw

/-- Witness for C8 with a concrete month/year start not after today. -/
theorem trainingPercentage_formula_and_bounds_witness :
    (getCurrentMonthPercentage [] 0 4 =
        round (100 * ((trainedDaysIn [] (daysFromTo 0 4) : ℚ) /
          ((daysFromTo 0 4).length : ℚ)))
      ∧ 0 ≤ getCurrentMonthPercentage [] 0 4
      ∧ getCurrentMonthPercentage [] 0 4 ≤ 100)
    ∧ (getCurrentYearPercentage [] 0 4 =
        round (100 * ((trainedDaysIn [] (daysFromTo 0 4) : ℚ) /
          ((daysFromTo 0 4).length : ℚ)))
      ∧ 0 ≤ getCurrentYearPercentage [] 0 4
      ∧ getCurrentYearPercentage [] 0 4 ≤ 100)
    ∧ (getCurrentWeekPercentage [] 4 =
        round (100 * ((trainedDaysIn [] (weekDays 4) : ℚ) /
          (((weekDays 4).filter (fun day => decide (day ≤ (4 : ℤ)))).length : ℚ)))
      ∧ ((∀ w ∈ ([] : List Workout), calendarDay w.date ≤ 4) →
          0 ≤ getCurrentWeekPercentage [] 4
          ∧ getCurrentWeekPercentage [] 4 ≤ 100)) :=
  trainingPercentage_formula_and_bounds [] 4 0 0 (by decide) (by decide)

/-- Counterexample to C8 as stated: with today a Monday (day 4 is Monday
1970-01-05) and workouts on all seven days of that week — six of them in the
future — the week percentage is 700, outside `[0, 100]`. -/
theorem getCurrentWeekPercentage_can_exceed_100 :
    getCurrentWeekPercentage
      [⟨345600000, []⟩, ⟨432000000, []⟩, ⟨518400000, []⟩, ⟨604800000, []⟩,
       ⟨691200000, []⟩, ⟨777600000, []⟩, ⟨864000000, []⟩] 4 = 700
    ∧ ¬(getCurrentWeekPercentage
      [⟨345600000, []⟩, ⟨432000000, []⟩, ⟨518400000, []⟩, ⟨604800000, []⟩,
       ⟨691200000, []⟩, ⟨777600000, []⟩, ⟨864000000, []⟩] 4 ≤ 100) := by
  have h : getCurrentWeekPercentage
      [⟨345600000, []⟩, ⟨432000000, []⟩, ⟨518400000, []⟩, ⟨604800000, []⟩,
       ⟨691200000, []⟩, ⟨777600000, []⟩, ⟨864000000, []⟩] 4 =
      round (((7 : ℚ) / (1 : ℚ)) * 100) := by
    show round (((trainedDaysIn
        [⟨345600000, []⟩, ⟨432000000, []⟩, ⟨518400000, []⟩, ⟨604800000, []⟩,
         ⟨691200000, []⟩, ⟨777600000, []⟩, ⟨864000000, []⟩] (weekDays 4) : ℚ) /
      (((weekDays 4).filter (fun day => decide (day ≤ (4 : ℤ)))).length : ℚ)) * 100) = _
    rw [show trainedDaysIn
        [⟨345600000, []⟩, ⟨432000000, []⟩, ⟨518400000, []⟩, ⟨604800000, []⟩,
         ⟨691200000, []⟩, ⟨777600000, []⟩, ⟨864000000, []⟩] (weekDays 4) = 7 from by decide,
      show ((weekDays 4).filter (fun day => decide (day ≤ (4 : ℤ)))).length = 1 from by decide]
    norm_num
  rw [h]
  norm_num [round_eq]

/-! ## Host calendar model (`Date` ↔ civil date, `toDateString`) -/

/-- Civil (proleptic Gregorian) date of an epoch-day index, the standard
days-to-civil algorithm;  models the `getFullYear/getMonth/getDate` view of
a `Date` under the fixed-offset policy. -/
def civilFromDays (z0 : ℤ) : ℤ × ℤ × ℤ :=
  let z := z0 + 719468
  let era := z / 146097
  let doe := z - era * 146097
  let yoe := (doe - doe / 1460 + doe / 36524 - doe / 146096) / 365
  let y := yoe + era * 400
  let doy := doe - (365 * yoe + yoe / 4 - yoe / 100)
  let mp := (5 * doy + 2) / 153
  let d := doy - (153 * mp + 2) / 5 + 1
  let m := mp + (if mp < 10 then 3 else -9)
  (y + (if m ≤ 2 then 1 else 0), m, d)

/-- Epoch-day index of a civil date (inverse of `civilFromDays`);  models
`new Date(y, m, d)` at day granularity. -/
def daysFromCivil (y0 m d : ℤ) : ℤ :=
  let y := y0 - (if m ≤ 2 then 1 else 0)
  let era := y / 400
  let yoe := y - era * 400
  let mp := m + (if 2 < m then -3 else 9)
  let doy := (153 * mp + 2) / 5 + d - 1
  let doe := yoe * 365 + yoe / 4 - yoe / 100 + doy
  era * 146097 + doe - 719468

/-- The weekday names used by `Date#toDateString`. -/
def weekdayNames : List String := ["Sun", "Mon", "Tue", "Wed", "Thu", "Fri", "Sat"]

/-- The month names used by `Date#toDateString`. -/
def monthNames : List String :=
  ["Jan", "Feb", "Mar", "Apr", "May", "Jun", "Jul", "Aug", "Sep", "Oct", "Nov", "Dec"]

/-- Two-digit zero padding of the day of month. -/
def pad2 (n : ℤ) : String := if n < 10 then "0" ++ toString n else toString n

/-- Modelled host behavior of `Date#toDateString`: `"Www Mmm DD YYYY"`, e.g.
`"Thu Oct 08 2026"` (years of four digits, the only ones the log uses). -/
def toDateString (ms : ℤ) : String :=
  let day := calendarDay ms
  let c := civilFromDays day
  (weekdayNames.getD (jsGetDay day).toNat "") ++ " " ++
    (monthNames.getD (c.2.1 - 1).toNat "") ++ " " ++ pad2 c.2.2 ++ " " ++ toString c.1

/-- Code-unit lexicographic comparison of character lists: the order
JavaScript's comparator-less `Array.prototype.sort` applies to strings. -/
def charListLtb : List Char → List Char → Bool
  | [], [] => false
  | [], _ :: _ => true
  | _ :: _, [] => false
  | a :: as, b :: bs =>
    if a.toNat < b.toNat then true
    else if b.toNat < a.toNat then false
    else charListLtb as bs

/-- The ≤ comparator JavaScript's default string sort realizes. -/
def jsStrLeb (a b : String) : Bool := !(charListLtb b.data a.data)

/-- Split a character list on a separator character. -/
def splitOnChar (c : Char) : List Char → List (List Char)
  | [] => [[]]
  | x :: xs =>
    let rest := splitOnChar c xs
    if x = c then [] :: rest
    else
      match rest with
      | [] => [[x]]
      | r :: rs => (x :: r) :: rs

/-- Parse a nonempty all-digit character list as a natural number. -/
def charsToNat? (cs : List Char) : Option ℕ :=
  if cs ≠ [] ∧ cs.all (fun ch => ch.isDigit) then
    some (cs.foldl (fun n ch => 10 * n + (ch.toNat - 48)) 0)
  else none

/-- Month number (1–12) of a three-letter month name. -/
def monthIndexOf (s : List Char) : ℤ :=
  match monthNames.enum.find? (fun p => p.2 == String.mk s) with
  | some p => (p.1 : ℤ) + 1
  | none => 1

/-- Modelled host behavior of `new Date(string)` on a `toDateString`-format
string (`"Www Mmm DD YYYY"`): the epoch-day index of that civil day.  The
source only feeds it strings it just produced with `toDateString`, so the
fallback 0 is unreachable. -/
def parseDateStringDay (s : String) : ℤ :=
  match splitOnChar (Char.ofNat 32) s.data with
  | [_, mon, dd, yyyy] =>
    match charsToNat? dd, charsToNat? yyyy with
    | some d, some y => daysFromCivil (y : ℤ) (monthIndexOf mon) (d : ℤ)
    | _, _ => 0
  | _ => 0

/-! ## Date parsing resilience (`safeParseDate`) -/

/-- The runtime input of `safeParseDate`: a `Date` object (valid or
invalid), a string, or any other value (the source's final fallback
branch).  A `Date`'s time value is `some t` when valid and `none` when it is
an Invalid Date (`NaN`). -/
inductive DateInput where
  | date (d : Option ℤ)
  | str (s : String)
  | other
deriving DecidableEq

/-- Modelled host behavior of `new Date(string)`: an ISO `YYYY-MM-DD` string
parses to the midnight of that civil day;  any other string — in particular
a malformed one — yields an Invalid Date (`none`).  `new Date` never throws
on a string, which is why the `try/catch` around the `Stats.tsx` twin of
`safeParseDate` is dead code. -/
def jsDateParse (s : String) : Option ℤ :=
  match splitOnChar (Char.ofNat 45) s.data with
  | [y, m, d] =>
    match charsToNat? y, charsToNat? m, charsToNat? d with
    | some yn, some mn, some dn =>
      if y.length = 4 ∧ 1 ≤ mn ∧ mn ≤ 12 ∧ 1 ≤ dn ∧ dn ≤ 31 then
        some (daysFromCivil (yn : ℤ) (mn : ℤ) (dn : ℤ) * msPerDay)
      else none
    | _, _, _ => none
  | _ => none

/-- `safeParseDate` from `useExerciseConsistencyData.ts` (and its identical
`Stats.tsx` twin, whose `try/catch` can never fire): a `Date` input is
copied (`new Date(d.getTime())` — an Invalid Date stays invalid), a string
is handed to `new Date(string)`, and only a value of any *other* type falls
back to "now". -/
def safeParseDate (now : ℤ) : DateInput → Option ℤ
  | .date d => d
  | .str s => jsDateParse s
  | .other => some now

/-- A valid `Date` input passes through `safeParseDate` unchanged, which is
why the analytics pipeline is embedded over already-parsed timestamps. -/
theorem safeParseDate_on_valid_date (now t : ℤ) :
    safeParseDate now (.date (some t)) = some t := rfl

/-- Claim C4 is wrong on the code: a malformed date *string* does not fall
back to "now" — `new Date("not-a-date")` is an Invalid Date (`NaN` time
value, `none` here), which `safeParseDate` returns unchanged;  the "now"
fallback is reached only by inputs that are neither `Date` nor string.
Nothing throws and the workout is still processed, but it is carried at an
invalid date whose day arithmetic is `NaN`, not at "now". -/
theorem safeParseDate_malformed_string_not_now :
    ∀ now : ℤ, safeParseDate now (.str "not-a-date") = none
      ∧ safeParseDate now .other = some now :=
  fun _ => ⟨rfl, rfl⟩

/-! ## Streaks (`calculateStats` in `App.tsx`) -/

/-- `isToday` from `dateUtils.ts`: `toDateString()` equality with now. -/
def isToday (d todayMs : ℤ) : Bool := toDateString d == toDateString todayMs

/-- Whether some workout falls on the calendar day `checkDay`
(`toDateString` equality, as in the streak loop). -/
def hasWorkoutOnDay (workouts : List Workout) (checkDay : ℤ) : Bool :=
  workouts.any (fun w => toDateString w.date == toDateString (checkDay * msPerDay))

/-- The backward current-streak scan of `calculateStats`, capped at 365
iterations: count consecutive days with a workout, stopping at the first
day without one. -/
def currentStreakLoop (workouts : List Workout) : ℤ → ℕ → ℕ
  | _, 0 => 0
  | checkDay, fuel + 1 =>
    if hasWorkoutOnDay workouts checkDay then
      1 + currentStreakLoop workouts (checkDay - 1) fuel
    else 0

/-- The `currentStreak` computation of `calculateStats` in `App.tsx`: start
from today if a workout exists today, else from yesterday, and scan
backward day by day (at most 365 steps). -/
def currentStreak (workouts : List Workout) (todayMs : ℤ) : ℕ :=
  if workouts.length = 0 then 0
  else
    let startDay := if workouts.any (fun w => isToday w.date todayMs) then
      calendarDay todayMs else calendarDay todayMs - 1
    currentStreakLoop workouts startDay 365

/-- The longest-streak loop of `calculateStats`: walk the (string-sorted)
unique date strings, re-parse consecutive entries, continue the run on a
day difference of exactly 1 and reset it otherwise;  finish with
`max longest temp`. -/
def longestScan : List String → ℤ → ℕ → ℕ → ℕ
  | [], _, tempStreak, longest => max longest tempStreak
  | s :: rest, prevDay, tempStreak, longest =>
    let d := parseDateStringDay s
    if (d - prevDay).natAbs = 1 then longestScan rest d (tempStreak + 1) longest
    else longestScan rest d 1 (max longest tempStreak)

/-- The `longestStreak` computation of `calculateStats` in `App.tsx`:
deduplicate the workouts' `toDateString()` strings and sort them with the
comparator-less `Array.prototype.sort` — i.e. *lexicographically by code
unit*, weekday name first, not chronologically — then scan for the longest
run of single-day differences.  (`List.dedup` keeps one copy per distinct
string, as `new Set` does;  any difference in which duplicate survives is
erased by the sort.) -/
def longestStreak (workouts : List Workout) : ℕ :=
  let sortedWorkouts := List.insertionSort (fun a b => b.date ≤ a.date) workouts
  let allDates := sortedWorkouts.map (fun w => toDateString w.date)
  let uniqueDates := List.insertionSort (fun a b => jsStrLeb a b = true) allDates.dedup
  match uniqueDates with
  | [] => 0
  | s :: rest => longestScan rest (parseDateStringDay s) 1 0

/-- Claim C10 is wrong on the code: with workouts on Thursday 2026-10-08,
Friday 2026-10-09 and Saturday 2026-10-10 and today = 2026-10-10 (a day
with a workout), the current streak is 3, but `longestStreak` sorts the
date strings `"Thu Oct 08 2026" / "Fri Oct 09 2026" / "Sat Oct 10 2026"`
lexicographically into Fri, Sat, Thu — not chronologically — so the scan
sees day differences 1 and 2 and reports a longest streak of only 2,
violating `longestStreak ≥ currentStreak`. -/
theorem longestStreak_lt_currentStreak_bug :
    (([⟨1791417600000, []⟩, ⟨1791504000000, []⟩, ⟨1791590400000, []⟩] : List Workout).any
      (fun w => isToday w.date 1791590400000)) = true
    ∧ currentStreak [⟨1791417600000, []⟩, ⟨1791504000000, []⟩, ⟨1791590400000, []⟩]
        1791590400000 = 3
    ∧ longestStreak [⟨1791417600000, []⟩, ⟨1791504000000, []⟩, ⟨1791590400000, []⟩] = 2
    ∧ longestStreak [⟨1791417600000, []⟩, ⟨1791504000000, []⟩, ⟨1791590400000, []⟩] <
        currentStreak [⟨1791417600000, []⟩, ⟨1791504000000, []⟩, ⟨1791590400000, []⟩]
          1791590400000 := by
  exact ⟨by decide, by decide, by decide, by decide⟩
